import Mathlib

/-!
Verification of the persistence layer of this repository: a shallow embedding
of `src/utils/db_handler.py` (the Supabase-backed `DatabaseHandler`), together
with proofs about its contract.

Modelling conventions:
* A fetched/stored row is the dictionary the Supabase client returns — every
  field may be absent.
* Datetimes are represented by their ISO strings; the engine's ordering on the
  `timestamp` column is lexicographic string order, which agrees with
  chronological order for the fixed-width format `datetime.utcnow().isoformat()`
  emits.
* One round trip to the backing service may be fault-injected: it can raise, or
  return a response without usable `data`.  The fault-free select executes the
  query the handler issues: `order('timestamp', desc=True).limit(n)`, with an
  optional `eq('language', lang)` filter.  The issued query names no secondary
  sort key, so the model returns equal-timestamp rows in stored order (a stable
  sort), one behaviour consistent with the query.
* Raised Python exceptions are `Except.error`; `st.error`/`st.info` logging is
  ignored (pure display, no control flow).
-/

/-- A row of the `video_summaries` table as fetched from the Supabase client:
a dictionary in which every one of the seven columns may be absent. -/
structure Row where
  id : Option Int
  video_id : Option String
  title : Option String
  summary : Option String
  language : Option String
  timestamp : Option String
  source_urls : Option String
  deriving DecidableEq

/-- The `VideoSummary` class of `src/utils/db_handler.py` (lines 8-17).
`timestamp` holds the parsed datetime, represented by its ISO string. -/
structure VideoSummary where
  id : Int
  video_id : String
  title : String
  summary : String
  language : String
  timestamp : String
  source_urls : String
  deriving DecidableEq

/-- Fault injected into one Supabase round trip: the call raises, or it
returns a response without usable `data`. -/
inductive Fault
  | raises
  | noData
  deriving DecidableEq

/-- The backend state one `DatabaseHandler` call sees: per-operation fault
injection, the stored table in insertion order, the next auto-increment `id`,
and the current UTC time (`datetime.utcnow().isoformat()`). -/
structure Backend where
  probeFault : Option Fault
  selectFault : Option Fault
  insertFault : Option Fault
  table : List Row
  nextId : Int
  now : String
  deriving DecidableEq

/-- Model of Python's `datetime.fromisoformat` validity check (standard
library, not repository code): a string parses when it starts with a
`DDDD-DD-DD` date followed by nothing or a `T`/space separator. -/
def isIsoLike (s : String) : Bool :=
  match s.toList with
  | y1 :: y2 :: y3 :: y4 :: '-' :: m1 :: m2 :: '-' :: d1 :: d2 :: rest =>
    (y1.isDigit && y2.isDigit && y3.isDigit && y4.isDigit &&
      m1.isDigit && m2.isDigit && d1.isDigit && d2.isDigit) &&
      (match rest with
       | [] => true
       | c :: _ => c = 'T' || c = ' ')
  | _ => false

/-- Model of `datetime.fromisoformat`: a parsed datetime is represented by its
ISO string itself; an unparseable string is `none` (a raised `ValueError`). -/
def fromisoformat (s : String) : Option String :=
  if isIsoLike s then some s else none

/-- Engine comparison on the stored `timestamp` column (an absent value sorts
below every present one in this model). -/
def tsLe : Option String → Option String → Bool
  | none, _ => true
  | some _, none => false
  | some a, some b => decide (a.data ≤ b.data)

/-- `order('timestamp', desc=True)` places row `a` before row `b` exactly when
`b`'s timestamp is at most `a`'s. -/
def rowGe (a b : Row) : Prop := tsLe b.timestamp a.timestamp = true

instance : DecidableRel rowGe := fun a b => by unfold rowGe; infer_instance

/-- The rows the fault-free select of `get_recent_summaries` returns:
the table ordered by `timestamp` descending (stable), capped at `limit`. -/
def engineRecent (b : Backend) (limit : Nat) : List Row :=
  (List.insertionSort rowGe b.table).take limit

/-- The rows the fault-free select of `get_summaries_by_language` returns:
rows whose stored `language` equals the argument, ordered by `timestamp`
descending (stable), capped at `limit`. -/
def engineByLang (b : Backend) (lang : String) (limit : Nat) : List Row :=
  (List.insertionSort rowGe
    (b.table.filter fun r => decide (r.language = some lang))).take limit

/-- The probe round trip of `verify_connection`:
`from_('video_summaries').select('id').limit(1).execute()` either raises or
yields a response; the `Bool` is Python's `hasattr(response, 'data')`. -/
def probeExec (b : Backend) : Except String Bool :=
  match b.probeFault with
  | some Fault.raises => Except.error "Connection verification failed"
  | some Fault.noData => Except.ok false
  | none => Except.ok true

/-- `DatabaseHandler.verify_connection` (src/utils/db_handler.py:56-66):
returns `hasattr(response, 'data')`, and `False` if the round trip raised. -/
def verify_connection (b : Backend) : Bool :=
  match probeExec b with
  | Except.ok hasData => hasData
  | Except.error _ => false

/-- `DatabaseHandler.save_summary` (src/utils/db_handler.py:68-97): the Python
return value (`bool`) or the raised exception, paired with the backend state
afterwards.  A fault-free insert appends the row (store-assigned `id`,
`timestamp` set to the current time) and returns a response echoing it, so the
`response.data` truthiness check passes and the function returns `True`. -/
def save_summary (b : Backend) (video_id title summary language source_urls : String) :
    Except String Bool × Backend :=
  if verify_connection b then
    match b.insertFault with
    | some Fault.raises =>
      (Except.error "Database error: insert failed", b)
    | some Fault.noData =>
      (Except.ok false, b)
    | none =>
      (Except.ok true,
        ⟨b.probeFault, b.selectFault, b.insertFault,
          b.table ++ [⟨some b.nextId, some video_id, some title, some summary,
            some language, some b.now, some source_urls⟩],
          b.nextId + 1, b.now⟩)
  else
    (Except.error "Database error: Database connection is not active", b)

/-- The completeness guard of the two list comprehensions
(src/utils/db_handler.py:128, 166): `all(key in item for key in [...])` over
the seven required keys. -/
def complete (r : Row) : Bool :=
  r.id.isSome && r.video_id.isSome && r.title.isSome && r.summary.isSome &&
    r.language.isSome && r.timestamp.isSome && r.source_urls.isSome

/-- One `VideoSummary(...)` constructor call inside the comprehension;
`datetime.fromisoformat` raising on the timestamp is an `error`. -/
def mkSummaryE (r : Row) : Except String VideoSummary :=
  match fromisoformat (r.timestamp.getD "") with
  | none => Except.error "Invalid isoformat string"
  | some ts =>
    Except.ok ⟨r.id.getD 0, r.video_id.getD "", r.title.getD "", r.summary.getD "",
      r.language.getD "", ts, r.source_urls.getD ""⟩

/-- Total counterpart of `mkSummaryE`, used to state results. -/
def mkSummary (r : Row) : VideoSummary :=
  ⟨r.id.getD 0, r.video_id.getD "", r.title.getD "", r.summary.getD "",
    r.language.getD "", r.timestamp.getD "", r.source_urls.getD ""⟩

/-- The list comprehension over the fetched rows that pass the completeness
guard, built left to right; the first exception aborts the whole
comprehension. -/
def buildSummaries : List Row → Except String (List VideoSummary)
  | [] => Except.ok []
  | r :: rs =>
    match mkSummaryE r with
    | Except.error e => Except.error e
    | Except.ok v =>
      match buildSummaries rs with
      | Except.error e => Except.error e
      | Except.ok vs => Except.ok (v :: vs)

/-- Body of `DatabaseHandler.get_recent_summaries` inside its `try`
(src/utils/db_handler.py:99-128): a failed probe and a data-less response are
normal `[]` returns; a raised select or a raised row construction is an
exception. -/
def get_recent_body (b : Backend) (limit : Nat) : Except String (List VideoSummary) :=
  if verify_connection b then
    match b.selectFault with
    | some Fault.raises => Except.error "select raised"
    | some Fault.noData => Except.ok []
    | none => buildSummaries ((engineRecent b limit).filter complete)
  else
    Except.ok []

/-- `DatabaseHandler.get_recent_summaries` (src/utils/db_handler.py:99-133):
the `except` clause turns any exception into `[]`. -/
def get_recent_summaries (b : Backend) (limit : Nat) : List VideoSummary :=
  match get_recent_body b limit with
  | Except.ok l => l
  | Except.error _ => []

/-- Body of `DatabaseHandler.get_summaries_by_language` inside its `try`
(src/utils/db_handler.py:135-166). -/
def get_by_language_body (b : Backend) (lang : String) (limit : Nat) :
    Except String (List VideoSummary) :=
  if verify_connection b then
    match b.selectFault with
    | some Fault.raises => Except.error "select raised"
    | some Fault.noData => Except.ok []
    | none => buildSummaries ((engineByLang b lang limit).filter complete)
  else
    Except.ok []

/-- `DatabaseHandler.get_summaries_by_language` (src/utils/db_handler.py:135-171):
the `except` clause turns any exception into `[]`. -/
def get_summaries_by_language (b : Backend) (lang : String) (limit : Nat) :
    List VideoSummary :=
  match get_by_language_body b lang limit with
  | Except.ok l => l
  | Except.error _ => []

/-- The two configuration sources read by `DatabaseHandler.__init__`
(src/utils/db_handler.py:22-24): `os.environ.get` and `st.secrets.get`, each
yielding a string or `None`. -/
structure Env where
  env_url : Option String
  env_key : Option String
  secrets_url : Option String
  secrets_key : Option String
  deriving DecidableEq

/-- Python's `a or b` on optional strings: `a` unless it is falsy
(`None` or the empty string). -/
def pyOr (a b : Option String) : Option String :=
  match a with
  | some s => if s.isEmpty then b else some s
  | none => b

/-- Python truthiness of an optional string (the `if not supabase_url` test). -/
def pyTruthy : Option String → Bool
  | none => false
  | some s => !s.isEmpty

/-- The exceptions `DatabaseHandler.__init__` can raise: `ValueError` for
missing configuration (re-raised unchanged by the `except ValueError` clause),
generic `Exception` for everything else. -/
inductive InitError
  | valueError (msg : String)
  | exception (msg : String)
  deriving DecidableEq

/-- `DatabaseHandler.__init__` (src/utils/db_handler.py:20-54): resolve each
credential from the environment, falling back to Streamlit secrets; raise
`ValueError` if a credential resolves falsy; then require the liveness probe to
succeed, else raise a generic `Exception`.  On success the handler owns the
verified backend. -/
def db_init (e : Env) (b : Backend) : Except InitError Backend :=
  let url := pyOr e.env_url e.secrets_url
  let key := pyOr e.env_key e.secrets_key
  if pyTruthy url = false then
    Except.error (InitError.valueError "Missing SUPABASE_URL")
  else if pyTruthy key = false then
    Except.error (InitError.valueError "Missing SUPABASE_KEY")
  else if verify_connection b = false then
    Except.error (InitError.exception "Failed to connect")
  else
    Except.ok b

/-! Concrete rows, backends and environments used as witnesses. -/

def rowEn : Row :=
  ⟨some 1, some "v1", some "Title One", some "Summary one", some "en",
    some "2024-01-01T00:00:00", some "u1"⟩

def rowEn2 : Row :=
  ⟨some 2, some "v2", some "Title Two", some "Summary two", some "en",
    some "2024-01-01T00:00:00", some "u2"⟩

def rowBadTs : Row :=
  ⟨some 3, some "v3", some "Title Three", some "Summary three", some "en",
    some "not a timestamp", some "u3"⟩

def rowNoTitle : Row :=
  ⟨some 4, some "v4", none, some "Summary four", some "en",
    some "2024-01-02T00:00:00", some "u4"⟩

def backendOk : Backend := ⟨none, none, none, [], 1, "2024-03-04T05:06:07"⟩

def backendDown : Backend :=
  ⟨some Fault.raises, none, none, [], 1, "2024-03-04T05:06:07"⟩

def backendSelDown : Backend :=
  ⟨none, some Fault.raises, none, [rowEn], 2, "2024-03-04T05:06:07"⟩

def backendNoData : Backend :=
  ⟨none, none, some Fault.noData, [], 1, "2024-03-04T05:06:07"⟩

def backendInsRaise : Backend :=
  ⟨none, none, some Fault.raises, [], 1, "2024-03-04T05:06:07"⟩

def backendTie : Backend :=
  ⟨none, none, none, [rowEn, rowEn2], 3, "2024-03-04T05:06:07"⟩

def backendBadTs : Backend :=
  ⟨none, none, none, [rowEn, rowBadTs], 4, "2024-03-04T05:06:07"⟩

def backendBadOnly : Backend :=
  ⟨none, none, none, [rowBadTs], 4, "2024-03-04T05:06:07"⟩

def backendLang : Backend :=
  ⟨none, none, none, [rowEn], 2, "2024-03-04T05:06:07"⟩

def backendIncomplete : Backend :=
  ⟨none, none, none, [rowEn, rowNoTitle], 5, "2024-03-04T05:06:07"⟩

def envMissing : Env := ⟨none, none, none, none⟩

def envFull : Env := ⟨some "https://example.supabase.co", some "key123", none, none⟩

def envEmptyUrl : Env := ⟨some "", some "key123", some "https://example.supabase.co", none⟩

def envEmptyBoth : Env := ⟨some "", some "key123", none, none⟩

/-! Helper lemmas about the embedding. -/

theorem tsLe_total (x y : Option String) : tsLe x y = true ∨ tsLe y x = true := by
  cases x with
  | none => exact Or.inl rfl
  | some a =>
    cases y with
    | none => exact Or.inr rfl
    | some b =>
      simp only [tsLe, decide_eq_true_eq]
      exact le_total a.data b.data

theorem tsLe_trans {x y z : Option String} (h1 : tsLe x y = true) (h2 : tsLe y z = true) :
    tsLe x z = true := by
  cases x with
  | none => rfl
  | some a =>
    cases y with
    | none => simp [tsLe] at h1
    | some b =>
      cases z with
      | none => simp [tsLe] at h2
      | some c =>
        simp only [tsLe, decide_eq_true_eq] at h1 h2 ⊢
        exact le_trans h1 h2

instance : IsTotal Row rowGe where
  total a b := tsLe_total b.timestamp a.timestamp

instance : IsTrans Row rowGe where
  trans a b c h1 h2 := tsLe_trans h2 h1

theorem verify_connection_true_iff (b : Backend) :
    verify_connection b = true ↔ b.probeFault = none := by
  rcases hb : b.probeFault with _ | f
  · simp [verify_connection, probeExec, hb]
  · cases f <;> simp [verify_connection, probeExec, hb]

theorem buildSummaries_length :
    ∀ {rows : List Row} {l : List VideoSummary},
      buildSummaries rows = Except.ok l → l.length = rows.length := by
  intro rows
  induction rows with
  | nil => intro l h; cases h; rfl
  | cons r rs ih =>
    intro l h
    unfold buildSummaries at h
    cases hm : mkSummaryE r with
    | error e => rw [hm] at h; cases h
    | ok v =>
      rw [hm] at h
      cases hb : buildSummaries rs with
      | error e => rw [hb] at h; cases h
      | ok vs =>
        rw [hb] at h
        cases h
        simp [ih hb]

theorem buildSummaries_mem :
    ∀ {rows : List Row} {l : List VideoSummary},
      buildSummaries rows = Except.ok l →
      ∀ y ∈ l, ∃ r ∈ rows, mkSummaryE r = Except.ok y := by
  intro rows
  induction rows with
  | nil => intro l h; cases h; intro y hy; cases hy
  | cons r rs ih =>
    intro l h
    unfold buildSummaries at h
    cases hm : mkSummaryE r with
    | error e => rw [hm] at h; cases h
    | ok v =>
      rw [hm] at h
      cases hb : buildSummaries rs with
      | error e => rw [hb] at h; cases h
      | ok vs =>
        rw [hb] at h
        cases h
        intro y hy
        rcases List.mem_cons.mp hy with hyv | hyvs
        · exact ⟨r, List.mem_cons_self r rs, hyv ▸ hm⟩
        · rcases ih hb y hyvs with ⟨a, ha, hok⟩
          exact ⟨a, List.mem_cons_of_mem r ha, hok⟩

theorem buildSummaries_pairwise {R : Row → Row → Prop} {S : VideoSummary → VideoSummary → Prop}
    (hRS : ∀ a b x y, R a b → mkSummaryE a = Except.ok x → mkSummaryE b = Except.ok y → S x y) :
    ∀ {rows : List Row} {l : List VideoSummary},
      buildSummaries rows = Except.ok l → rows.Pairwise R → l.Pairwise S := by
  intro rows
  induction rows with
  | nil => intro l h _; cases h; exact List.Pairwise.nil
  | cons r rs ih =>
    intro l h hp
    unfold buildSummaries at h
    cases hm : mkSummaryE r with
    | error e => rw [hm] at h; cases h
    | ok v =>
      rw [hm] at h
      cases hb : buildSummaries rs with
      | error e => rw [hb] at h; cases h
      | ok vs =>
        rw [hb] at h
        cases h
        rcases List.pairwise_cons.mp hp with ⟨hhead, htail⟩
        refine List.pairwise_cons.mpr ⟨?_, ih hb htail⟩
        intro y hy
        rcases buildSummaries_mem hb y hy with ⟨a, ha, hok⟩
        exact hRS r a v y (hhead a ha) hm hok

theorem buildSummaries_map :
    ∀ {rows : List Row},
      (∀ r ∈ rows, mkSummaryE r = Except.ok (mkSummary r)) →
      buildSummaries rows = Except.ok (rows.map mkSummary) := by
  intro rows
  induction rows with
  | nil => intro _; rfl
  | cons r rs ih =>
    intro h
    unfold buildSummaries
    rw [h r (List.mem_cons_self r rs), ih fun a ha => h a (List.mem_cons_of_mem r ha)]
    rfl

theorem buildSummaries_error :
    ∀ {rows : List Row} {r : Row} {e : String},
      r ∈ rows → mkSummaryE r = Except.error e →
      ∃ msg, buildSummaries rows = Except.error msg := by
  intro rows
  induction rows with
  | nil => intro r e hr _; cases hr
  | cons a rs ih =>
    intro r e hr he
    unfold buildSummaries
    cases hm : mkSummaryE a with
    | error e' => exact ⟨e', rfl⟩
    | ok v =>
      rcases List.mem_cons.mp hr with hra | hrs
      · rw [hra] at he; rw [he] at hm; cases hm
      · rcases ih hrs he with ⟨msg, hmsg⟩
        rw [hmsg]
        exact ⟨msg, rfl⟩

theorem mkSummaryE_ok_iff {r : Row} {x : VideoSummary} :
    mkSummaryE r = Except.ok x ↔
      isIsoLike (r.timestamp.getD "") = true ∧ x = mkSummary r := by
  unfold mkSummaryE fromisoformat mkSummary
  by_cases hi : isIsoLike (r.timestamp.getD "") = true
  · simp [hi, eq_comm]
  · have hfalse : isIsoLike (r.timestamp.getD "") = false := by
      cases h : isIsoLike (r.timestamp.getD "") with
      | false => rfl
      | true => exact absurd h hi
    simp [hfalse]

theorem mkSummaryE_ok_of_iso {r : Row} (h : isIsoLike (r.timestamp.getD "") = true) :
    mkSummaryE r = Except.ok (mkSummary r) :=
  mkSummaryE_ok_iff.mpr ⟨h, rfl⟩

theorem mkSummaryE_error_of_not_iso {r : Row} (h : isIsoLike (r.timestamp.getD "") = false) :
    mkSummaryE r = Except.error "Invalid isoformat string" := by
  unfold mkSummaryE fromisoformat
  simp [h]

theorem pyOr_empty (x : Option String) : pyOr (some "") x = x := by
  cases x <;> rfl

theorem pyOr_none (x : Option String) : pyOr none x = x := rfl

/-! Claim theorems. -/

/-- C5: `verify_connection` never raises — every probe outcome, a raised
exception included, is caught and mapped to a `Bool` — and it returns `true`
exactly when the trivial round trip against `video_summaries` yields a
data-bearing response, `false` on any failure. -/
theorem verify_connection_contract (b : Backend) :
    (verify_connection b = true ↔ probeExec b = Except.ok true) ∧
    (∀ msg, probeExec b = Except.error msg → verify_connection b = false) ∧
    (probeExec b = Except.ok false → verify_connection b = false) := by
  rcases hb : b.probeFault with _ | f
  · simp [verify_connection, probeExec, hb]
  · cases f <;> simp [verify_connection, probeExec, hb]

/-- Witness for C5: a healthy probe yields `true`; a raising probe yields
`false`. -/
theorem verify_connection_contract_witness :
    verify_connection backendOk = true ∧ verify_connection backendDown = false :=
  ⟨(verify_connection_contract backendOk).1.mpr rfl,
   (verify_connection_contract backendDown).2.1 "Connection verification failed" rfl⟩

/-- C4: neither read operation ever raises — any exception inside the body is
caught and mapped to `[]` — and each returns the empty sequence when the probe
fails, when the select faults (raises or yields no data), and when the table is
empty. -/
theorem reads_degrade_to_empty (b : Backend) (k : Nat) (lang : String) :
    (∀ msg, get_recent_body b k = Except.error msg → get_recent_summaries b k = []) ∧
    (∀ msg, get_by_language_body b lang k = Except.error msg →
      get_summaries_by_language b lang k = []) ∧
    (b.probeFault ≠ none →
      get_recent_summaries b k = [] ∧ get_summaries_by_language b lang k = []) ∧
    (b.selectFault ≠ none →
      get_recent_summaries b k = [] ∧ get_summaries_by_language b lang k = []) ∧
    (b.table = [] →
      get_recent_summaries b k = [] ∧ get_summaries_by_language b lang k = []) := by
  refine ⟨?_, ?_, ?_, ?_, ?_⟩
  · intro msg h
    simp [get_recent_summaries, h]
  · intro msg h
    simp [get_summaries_by_language, h]
  · intro hp
    have hv : verify_connection b = false := by
      cases h : verify_connection b with
      | false => rfl
      | true => exact absurd ((verify_connection_true_iff b).mp h) hp
    constructor
    · simp [get_recent_summaries, get_recent_body, hv]
    · simp [get_summaries_by_language, get_by_language_body, hv]
  · intro hs
    cases hv : verify_connection b with
    | false =>
      constructor
      · simp [get_recent_summaries, get_recent_body, hv]
      · simp [get_summaries_by_language, get_by_language_body, hv]
    | true =>
      rcases hf : b.selectFault with _ | f
      · exact absurd hf hs
      · cases f <;>
          exact ⟨by simp [get_recent_summaries, get_recent_body, hv, hf],
            by simp [get_summaries_by_language, get_by_language_body, hv, hf]⟩
  · intro ht
    cases hv : verify_connection b with
    | false =>
      constructor
      · simp [get_recent_summaries, get_recent_body, hv]
      · simp [get_summaries_by_language, get_by_language_body, hv]
    | true =>
      rcases hf : b.selectFault with _ | f
      · constructor
        · simp [get_recent_summaries, get_recent_body, hv, hf, engineRecent, ht, buildSummaries]
        · simp [get_summaries_by_language, get_by_language_body, hv, hf, engineByLang, ht,
            buildSummaries]
      · cases f <;>
          exact ⟨by simp [get_recent_summaries, get_recent_body, hv, hf],
            by simp [get_summaries_by_language, get_by_language_body, hv, hf]⟩

/-- Witness for C4: a raising probe, a raising select and an empty table each
yield `[]` from both reads. -/
theorem reads_degrade_to_empty_witness :
    (get_recent_summaries backendDown 5 = [] ∧
      get_summaries_by_language backendDown "en" 5 = []) ∧
    (get_recent_summaries backendSelDown 5 = [] ∧
      get_summaries_by_language backendSelDown "en" 5 = []) ∧
    (get_recent_summaries backendOk 5 = [] ∧
      get_summaries_by_language backendOk "en" 5 = []) :=
  ⟨(reads_degrade_to_empty backendDown 5 "en").2.2.1 (by decide),
   (reads_degrade_to_empty backendSelDown 5 "en").2.2.2.1 (by decide),
   (reads_degrade_to_empty backendOk 5 "en").2.2.2.2 rfl⟩

/-- C6: a required credential that is falsy in every configuration source makes
construction fail with `ValueError` — the configuration error, a constructor
distinct from the generic `exception` used when the liveness probe fails; a
failed probe is fatal to construction; and a successfully constructed handler
is always one whose probe succeeded.  Failure yields `Except.error`, so no
handler (partial state) is produced. -/
theorem db_init_contract (e : Env) (b : Backend) :
    (pyTruthy (pyOr e.env_url e.secrets_url) = false →
      db_init e b = Except.error (InitError.valueError "Missing SUPABASE_URL")) ∧
    (pyTruthy (pyOr e.env_url e.secrets_url) = true →
      pyTruthy (pyOr e.env_key e.secrets_key) = false →
      db_init e b = Except.error (InitError.valueError "Missing SUPABASE_KEY")) ∧
    (pyTruthy (pyOr e.env_url e.secrets_url) = true →
      pyTruthy (pyOr e.env_key e.secrets_key) = true →
      verify_connection b = false →
      db_init e b = Except.error (InitError.exception "Failed to connect")) ∧
    (∀ h, db_init e b = Except.ok h → verify_connection b = true ∧ h = b) ∧
    (∀ m m', InitError.valueError m ≠ InitError.exception m') := by
  refine ⟨?_, ?_, ?_, ?_, fun m m' h => InitError.noConfusion h⟩
  · intro h
    simp [db_init, h]
  · intro hu hk
    simp [db_init, hu, hk]
  · intro hu hk hv
    simp [db_init, hu, hk, hv]
  · intro h hok
    unfold db_init at hok
    by_cases hu : pyTruthy (pyOr e.env_url e.secrets_url) = false
    · simp [hu] at hok
    · by_cases hk : pyTruthy (pyOr e.env_key e.secrets_key) = false
      · simp [hu, hk] at hok
      · cases hv : verify_connection b with
        | false => simp [hu, hk, hv] at hok
        | true =>
          simp [hu, hk, hv] at hok
          exact ⟨rfl, hok.symm⟩

/-- Witness for C6: a fully missing configuration fails with the
missing-URL `ValueError`; full configuration with a dead backend fails with the
generic exception; full configuration with a healthy backend constructs a
handler whose probe succeeded. -/
theorem db_init_contract_witness :
    db_init envMissing backendOk = Except.error (InitError.valueError "Missing SUPABASE_URL") ∧
    db_init envFull backendDown = Except.error (InitError.exception "Failed to connect") ∧
    (verify_connection backendOk = true ∧ backendOk = backendOk) :=
  ⟨(db_init_contract envMissing backendOk).1 rfl,
   (db_init_contract envFull backendDown).2.2.1 rfl rfl rfl,
   (db_init_contract envFull backendOk).2.2.2.1 backendOk rfl⟩

/-- C10: a required environment variable holding the empty string is treated
exactly as if absent — resolution falls through to the Streamlit secrets
source — and only when that source also yields a falsy value does construction
fail with the missing-configuration error. -/
theorem empty_env_var_falls_through (e : Env) (b : Backend) :
    (e.env_url = some "" →
      db_init e b = db_init ⟨none, e.env_key, e.secrets_url, e.secrets_key⟩ b) ∧
    (e.env_key = some "" →
      db_init e b = db_init ⟨e.env_url, none, e.secrets_url, e.secrets_key⟩ b) ∧
    (e.env_url = some "" → pyTruthy e.secrets_url = false →
      db_init e b = Except.error (InitError.valueError "Missing SUPABASE_URL")) ∧
    (e.env_url = some "" → pyTruthy e.secrets_url = true →
      db_init e b ≠ Except.error (InitError.valueError "Missing SUPABASE_URL")) := by
  refine ⟨?_, ?_, ?_, ?_⟩
  · intro h
    unfold db_init
    rw [h, pyOr_empty]
    rfl
  · intro h
    unfold db_init
    rw [h, pyOr_empty]
    rfl
  · intro hu hs
    have hres : pyOr e.env_url e.secrets_url = e.secrets_url := by rw [hu, pyOr_empty]
    simp [db_init, hres, hs]
  · intro hu hs
    have hres : pyOr e.env_url e.secrets_url = e.secrets_url := by rw [hu, pyOr_empty]
    unfold db_init
    simp only [hres, hs]
    by_cases hk : pyTruthy (pyOr e.env_key e.secrets_key) = false
    · simp [hk]
    · cases hv : verify_connection b with
      | false => simp [hk, hv]
      | true => simp [hk, hv]

/-- Witness for C10: with `SUPABASE_URL` set to `""` in the environment,
construction behaves exactly as with it unset — succeeding via the secrets
value when one exists, failing with the missing-URL error when the secrets
source is also empty. -/
theorem empty_env_var_falls_through_witness :
    (db_init envEmptyUrl backendOk =
      db_init ⟨none, envEmptyUrl.env_key, envEmptyUrl.secrets_url, envEmptyUrl.secrets_key⟩
        backendOk) ∧
    (db_init envEmptyBoth backendOk =
      Except.error (InitError.valueError "Missing SUPABASE_URL")) ∧
    db_init envEmptyUrl backendOk ≠ Except.error (InitError.valueError "Missing SUPABASE_URL") :=
  ⟨(empty_env_var_falls_through envEmptyUrl backendOk).1 rfl,
   (empty_env_var_falls_through envEmptyBoth backendOk).2.2.1 rfl rfl,
   (empty_env_var_falls_through envEmptyUrl backendOk).2.2.2 rfl rfl⟩

/-- C1 counterexample: two successful saves with entirely different
caller-supplied fields return the identical value `Except.ok true` — the
function returns the Python `bool` its annotation declares, so the returned
value carries none of the caller's fields and is not the populated record the
claim describes. -/
theorem save_returns_bool_counterexample :
    (save_summary backendOk "abc123" "Test Video" "A short summary." "en"
        "https://youtu.be/abc123").1 = Except.ok true ∧
    (save_summary backendOk "zzz999" "Other Video" "A different summary." "ja"
        "https://youtu.be/zzz999").1 = Except.ok true ∧
    ("abc123" : String) ≠ "zzz999" :=
  ⟨rfl, rfl, by decide⟩

/-- C1 amended: a successful `save_summary` returns `True`, not the record;
the record it appends to the store is the fully populated one — store-assigned
`id` (the next auto-increment value) and store-assigned `timestamp` (the
current UTC time), with every caller-supplied field echoed verbatim. -/
theorem save_summary_success (b : Backend) (v t s lang u : String)
    (hp : b.probeFault = none) (hi : b.insertFault = none) :
    (save_summary b v t s lang u).1 = Except.ok true ∧
    (save_summary b v t s lang u).2.table =
      b.table ++ [⟨some b.nextId, some v, some t, some s, some lang, some b.now, some u⟩] := by
  have hv : verify_connection b = true := (verify_connection_true_iff b).mpr hp
  constructor <;> simp [save_summary, hv, hi]

/-- Witness for C1 (amended) at the spec's scenario input. -/
theorem save_summary_success_witness :
    (save_summary backendOk "abc123" "Test Video" "A short summary." "en"
        "https://youtu.be/abc123").1 = Except.ok true ∧
    (save_summary backendOk "abc123" "Test Video" "A short summary." "en"
        "https://youtu.be/abc123").2.table =
      backendOk.table ++ [⟨some backendOk.nextId, some "abc123", some "Test Video",
        some "A short summary.", some "en", some backendOk.now, some "https://youtu.be/abc123"⟩] :=
  save_summary_success backendOk "abc123" "Test Video" "A short summary." "en"
    "https://youtu.be/abc123" rfl rfl

/-- C2 counterexample: the probe succeeds, the insert completes but the
response carries no data — the code's own "Failed to save summary" branch — and
`save_summary` returns `False` normally instead of raising; nothing was
written. -/
theorem save_failure_returns_normally :
    (save_summary backendNoData "v" "t" "s" "en" "u").1 = Except.ok false ∧
    (save_summary backendNoData "v" "t" "s" "en" "u").2.table = [] :=
  ⟨rfl, rfl⟩

/-- C2 amended: when the probe fails or the insert raises, `save_summary`
propagates an exception (re-raised as a generic database error) and no record
is written; but when the insert completes with an empty/absent data response,
`save_summary` returns `False` normally — a failure path that does not raise —
also leaving the store unchanged. -/
theorem save_summary_failure_paths (b : Backend) (v t s lang u : String) :
    (verify_connection b = false →
      (save_summary b v t s lang u).1 =
        Except.error "Database error: Database connection is not active" ∧
      (save_summary b v t s lang u).2 = b) ∧
    (verify_connection b = true → b.insertFault = some Fault.raises →
      (save_summary b v t s lang u).1 = Except.error "Database error: insert failed" ∧
      (save_summary b v t s lang u).2 = b) ∧
    (verify_connection b = true → b.insertFault = some Fault.noData →
      (save_summary b v t s lang u).1 = Except.ok false ∧
      (save_summary b v t s lang u).2 = b) := by
  refine ⟨?_, ?_, ?_⟩
  · intro hv
    constructor <;> simp [save_summary, hv]
  · intro hv hi
    constructor <;> simp [save_summary, hv, hi]
  · intro hv hi
    constructor <;> simp [save_summary, hv, hi]

/-- Witness for C2 (amended): a dead probe and a raising insert each raise and
write nothing. -/
theorem save_summary_failure_paths_witness :
    ((save_summary backendDown "v" "t" "s" "en" "u").1 =
        Except.error "Database error: Database connection is not active" ∧
      (save_summary backendDown "v" "t" "s" "en" "u").2 = backendDown) ∧
    ((save_summary backendInsRaise "v" "t" "s" "en" "u").1 =
        Except.error "Database error: insert failed" ∧
      (save_summary backendInsRaise "v" "t" "s" "en" "u").2 = backendInsRaise) :=
  ⟨(save_summary_failure_paths backendDown "v" "t" "s" "en" "u").1 rfl,
   (save_summary_failure_paths backendInsRaise "v" "t" "s" "en" "u").2.1 rfl rfl⟩

theorem summary_ts_le {a b : Row} {x y : VideoSummary} (hab : rowGe a b)
    (hax : mkSummaryE a = Except.ok x) (hby : mkSummaryE b = Except.ok y) :
    y.timestamp ≤ x.timestamp := by
  rcases mkSummaryE_ok_iff.mp hax with ⟨hia, hxa⟩
  rcases mkSummaryE_ok_iff.mp hby with ⟨hib, hyb⟩
  subst hxa
  subst hyb
  unfold rowGe at hab
  cases htb : b.timestamp with
  | none =>
    rw [htb] at hib
    cases hib
  | some sb =>
    cases hta : a.timestamp with
    | none =>
      rw [hta, htb] at hab
      simp [tsLe] at hab
    | some sa =>
      rw [hta, htb] at hab
      have hle : sb.data ≤ sa.data := of_decide_eq_true hab
      simp only [mkSummary, hta, htb, Option.getD_some]
      exact String.le_iff_toList_le.mpr hle

/-- C3 counterexample: the issued query orders by `timestamp` only, with no
secondary key; with two stored records sharing one timestamp the result comes
back in stored (insertion) order — ids `[1, 2]`, ascending — not `id`
descending as the claim requires. -/
theorem get_recent_tie_not_id_desc :
    (get_recent_summaries backendTie 5).map VideoSummary.id = [1, 2] ∧
    (get_recent_summaries backendTie 5).map VideoSummary.timestamp =
      ["2024-01-01T00:00:00", "2024-01-01T00:00:00"] := by
  constructor <;> decide

/-- C3 amended: `get_recent_summaries(limit=k)` returns at most `k` records,
ordered by `timestamp` non-increasing; the order among records with equal
timestamps is whatever the backend returns for the issued query (which names no
secondary sort key) — in this model the stored order, not `id` descending. -/
theorem get_recent_bounded_sorted (b : Backend) (k : Nat) :
    (get_recent_summaries b k).length ≤ k ∧
    List.Sorted (fun x y : VideoSummary => y.timestamp ≤ x.timestamp)
      (get_recent_summaries b k) := by
  have key : ∀ l, get_recent_body b k = Except.ok l →
      l.length ≤ k ∧
      List.Sorted (fun x y : VideoSummary => y.timestamp ≤ x.timestamp) l := by
    intro l h
    unfold get_recent_body at h
    cases hv : verify_connection b with
    | false =>
      rw [hv] at h
      simp at h
      subst h
      exact ⟨Nat.zero_le k, List.Pairwise.nil⟩
    | true =>
      rw [hv] at h
      simp only [if_true] at h
      rcases hf : b.selectFault with _ | f
      · rw [hf] at h
        have hlen : l.length = ((engineRecent b k).filter complete).length :=
          buildSummaries_length h
        have hsorted : List.Pairwise rowGe (List.insertionSort rowGe b.table) :=
          List.sorted_insertionSort rowGe b.table
        have hpair : ((engineRecent b k).filter complete).Pairwise rowGe :=
          (hsorted.sublist (List.take_sublist k _)).sublist (List.filter_sublist _)
        constructor
        · rw [hlen]
          calc ((engineRecent b k).filter complete).length
              ≤ (engineRecent b k).length := List.length_filter_le _ _
            _ ≤ k := List.length_take_le k _
        · exact buildSummaries_pairwise
            (fun a c x y hac hax hcy => summary_ts_le hac hax hcy) h hpair
      · rw [hf] at h
        cases f with
        | raises => cases h
        | noData =>
          simp at h
          subst h
          exact ⟨Nat.zero_le k, List.Pairwise.nil⟩
  cases hbody : get_recent_body b k with
  | error e =>
    constructor <;> simp [get_recent_summaries, hbody]
  | ok l =>
    have hk := key l hbody
    have hval : get_recent_summaries b k = l := by simp [get_recent_summaries, hbody]
    rw [hval]
    exact hk

/-- C7: every record returned by `get_summaries_by_language` has `language`
exactly equal (case-sensitive string equality) to the argument — including the
empty string, which is accepted and can only match records whose stored
`language` is also the empty string — and a language with no matching stored
records yields the empty sequence, not an error. -/
theorem by_language_contract (b : Backend) (lang : String) (k : Nat) :
    (∀ s ∈ get_summaries_by_language b lang k, s.language = lang) ∧
    ((∀ r ∈ b.table, r.language ≠ some lang) →
      get_summaries_by_language b lang k = []) := by
  constructor
  · intro s hs
    unfold get_summaries_by_language at hs
    cases hbody : get_by_language_body b lang k with
    | error e => rw [hbody] at hs; cases hs
    | ok l =>
      rw [hbody] at hs
      simp only at hs
      unfold get_by_language_body at hbody
      cases hv : verify_connection b with
      | false =>
        rw [hv] at hbody
        simp at hbody
        subst hbody
        cases hs
      | true =>
        rw [hv] at hbody
        simp only [if_true] at hbody
        rcases hf : b.selectFault with _ | f
        · rw [hf] at hbody
          rcases buildSummaries_mem hbody s hs with ⟨r, hr, hok⟩
          rcases List.mem_filter.mp hr with ⟨hmem, _⟩
          have hmem2 : r ∈ List.insertionSort rowGe
              (b.table.filter fun a => decide (a.language = some lang)) :=
            (List.take_sublist k _).subset hmem
          have hmem3 : r ∈ b.table.filter fun a => decide (a.language = some lang) :=
            (List.mem_insertionSort rowGe).mp hmem2
          have hlang : r.language = some lang :=
            of_decide_eq_true (List.mem_filter.mp hmem3).2
          rcases mkSummaryE_ok_iff.mp hok with ⟨_, hsr⟩
          subst hsr
          simp [mkSummary, hlang]
        · rw [hf] at hbody
          cases f with
          | raises => cases hbody
          | noData =>
            simp at hbody
            subst hbody
            cases hs
  · intro hnone
    have hfil : (b.table.filter fun r => decide (r.language = some lang)) = [] :=
      List.filter_eq_nil_iff.mpr fun a ha => by
        simpa using hnone a ha
    unfold get_summaries_by_language get_by_language_body
    cases hv : verify_connection b with
    | false => simp
    | true =>
      rcases hf : b.selectFault with _ | f
      · simp [engineByLang, hfil, buildSummaries]
      · cases f <;> simp

/-- Witness for C7: a store holding one English record returns it (with
`language = "en"`) and returns nothing for French. -/
theorem by_language_contract_witness :
    (mkSummary rowEn).language = "en" ∧
    get_summaries_by_language backendLang "fr" 5 = [] :=
  ⟨(by_language_contract backendLang "en" 5).1 (mkSummary rowEn) (by decide),
   (by_language_contract backendLang "fr" 5).2 (by decide)⟩

/-- C8 counterexample: `rowEn` is fetched, has all seven required fields and a
valid timestamp, yet the read returns `[]`: the malformed timestamp of the
complete row `rowBadTs` raises inside the comprehension and the `except` clause
discards every row, so the well-formed fetched row is *not* returned — skipping
is not confined to the malformed rows. -/
theorem wellformed_row_dropped_counterexample :
    complete rowEn = true ∧
    isIsoLike ((rowEn.timestamp).getD "") = true ∧
    rowEn ∈ engineRecent backendBadTs 5 ∧
    complete rowBadTs = true ∧
    get_recent_summaries backendBadTs 5 = [] := by
  refine ⟨rfl, rfl, by decide, rfl, by decide⟩

/-- C8 amended: on both reads, any fetched row missing one of the seven
required fields is silently skipped — omitted from the result with no error
surfaced — and, provided every *complete* fetched row has a parseable
timestamp, the complete fetched rows are exactly the ones returned, in fetched
order.  (A complete fetched row with an unparseable timestamp instead empties
the whole result; see C9.) -/
theorem reads_skip_incomplete_rows (b : Backend) (k : Nat) (lang : String)
    (hp : b.probeFault = none) (hs : b.selectFault = none)
    (h1 : ∀ r ∈ engineRecent b k, complete r = true →
      isIsoLike (r.timestamp.getD "") = true)
    (h2 : ∀ r ∈ engineByLang b lang k, complete r = true →
      isIsoLike (r.timestamp.getD "") = true) :
    get_recent_summaries b k = ((engineRecent b k).filter complete).map mkSummary ∧
    get_summaries_by_language b lang k =
      ((engineByLang b lang k).filter complete).map mkSummary := by
  have hv : verify_connection b = true := (verify_connection_true_iff b).mpr hp
  have hbs1 : buildSummaries ((engineRecent b k).filter complete) =
      Except.ok (((engineRecent b k).filter complete).map mkSummary) :=
    buildSummaries_map fun r hr => by
      rcases List.mem_filter.mp hr with ⟨hmem, hc⟩
      exact mkSummaryE_ok_of_iso (h1 r hmem hc)
  have hbs2 : buildSummaries ((engineByLang b lang k).filter complete) =
      Except.ok (((engineByLang b lang k).filter complete).map mkSummary) :=
    buildSummaries_map fun r hr => by
      rcases List.mem_filter.mp hr with ⟨hmem, hc⟩
      exact mkSummaryE_ok_of_iso (h2 r hmem hc)
  constructor
  · simp [get_recent_summaries, get_recent_body, hv, hs, hbs1]
  · simp [get_summaries_by_language, get_by_language_body, hv, hs, hbs2]

/-- Witness for C8 (amended): a table holding one complete row and one row with
no `title` returns exactly the complete row's record on both reads. -/
theorem reads_skip_incomplete_rows_witness :
    get_recent_summaries backendIncomplete 5 =
      ((engineRecent backendIncomplete 5).filter complete).map mkSummary ∧
    get_summaries_by_language backendIncomplete "en" 5 =
      ((engineByLang backendIncomplete "en" 5).filter complete).map mkSummary :=
  reads_skip_incomplete_rows backendIncomplete 5 "en" rfl rfl (by decide) (by decide)

/-- C9: on both reads, if any fetched row has all seven required fields but an
unparseable timestamp, the entire read returns `[]` — well-formed rows
included — rather than skipping only the malformed row (the exception raised by
`datetime.fromisoformat` aborts the whole comprehension and the `except` clause
returns the empty list). -/
theorem bad_timestamp_empties_read (b : Backend) (k : Nat) (lang : String) :
    ((∃ r ∈ engineRecent b k, complete r = true ∧
        isIsoLike (r.timestamp.getD "") = false) →
      get_recent_summaries b k = []) ∧
    ((∃ r ∈ engineByLang b lang k, complete r = true ∧
        isIsoLike (r.timestamp.getD "") = false) →
      get_summaries_by_language b lang k = []) := by
  constructor
  · rintro ⟨r, hr, hc, hbad⟩
    cases hv : verify_connection b with
    | false => simp [get_recent_summaries, get_recent_body, hv]
    | true =>
      rcases hf : b.selectFault with _ | f
      · have hrf : r ∈ (engineRecent b k).filter complete :=
          List.mem_filter.mpr ⟨hr, hc⟩
        rcases buildSummaries_error hrf (mkSummaryE_error_of_not_iso hbad) with ⟨msg, hmsg⟩
        simp [get_recent_summaries, get_recent_body, hv, hf, hmsg]
      · cases f <;> simp [get_recent_summaries, get_recent_body, hv, hf]
  · rintro ⟨r, hr, hc, hbad⟩
    cases hv : verify_connection b with
    | false => simp [get_summaries_by_language, get_by_language_body, hv]
    | true =>
      rcases hf : b.selectFault with _ | f
      · have hrf : r ∈ (engineByLang b lang k).filter complete :=
          List.mem_filter.mpr ⟨hr, hc⟩
        rcases buildSummaries_error hrf (mkSummaryE_error_of_not_iso hbad) with ⟨msg, hmsg⟩
        simp [get_summaries_by_language, get_by_language_body, hv, hf, hmsg]
      · cases f <;> simp [get_summaries_by_language, get_by_language_body, hv, hf]

/-- Witness for C9: a table whose only row is complete with timestamp
`"not a timestamp"` yields `[]` from both reads. -/
theorem bad_timestamp_empties_read_witness :
    get_recent_summaries backendBadOnly 5 = [] ∧
    get_summaries_by_language backendBadOnly "en" 5 = [] :=
  ⟨(bad_timestamp_empties_read backendBadOnly 5 "en").1 (by decide),
   (bad_timestamp_empties_read backendBadOnly 5 "en").2 (by decide)⟩
